import Mathlib

set_option linter.unusedSectionVars false
set_option linter.unusedVariables false

/-!
# Verification of the rebound integration core (`src/rebound.c`)

This file gives a shallow embedding of the step orchestrator (`rebound_step`),
the initialization routine (`rebound_init`) and the integration loop controller
(`rebound_integrate`) of the rebound N-body engine, and proves or refutes the
frozen claims about them.

Modelling conventions:
* C `double` arithmetic is modelled over an arbitrary linear ordered
  commutative ring `α`: the functions under study use only `+`, `-`, `*` and
  order comparisons (never division), so this captures exact real arithmetic;
  `rebound_init` is stated over `ℚ` (its defaults include `0.001` and `1e-9`),
  and concrete runs instantiate `α := ℤ` so that the kernel can evaluate them.
* The collaborator subsystems (`integrator_part1/part2/synchronize`,
  `boundaries_check`, `gravity_calculate_acceleration`, `collisions_search`,
  `collisions_resolve`, tree/MPI maintenance) are not part of the source under
  `src/`; they are modelled as opaque-effect parameters (`Collab`, the
  `stepFn`/`sync` parameters below), following the call contracts of the spec.
* Callback hooks are registered via boolean flags in the state (mirroring the
  NULL-pointer checks of the C struct) with their behaviour passed as the
  `Hooks` parameter.
* Build-time `#ifdef` toggles (TREE, MPI, GRAVITY_TREE, COLLISIONS_NONE,
  OPENGL) are modelled as a `Config` capability record.
* Each collaborator or hook invocation is recorded as an event (`Ev`) so that
  ordering and "is invoked" claims are statements about the emitted trace.
* The unbounded C `while` loop is modelled by fuel-indexed recursion
  (`integrateGo`); theorems about runs are conditional on the run producing a
  result (`= some …`), which concrete witnesses establish by evaluation.
-/

/-- A particle as read by the monitoring checks: position only
(`p.x`, `p.y`, `p.z` are the fields the loop controller reads). -/
structure Particle (α : Type) where
  x : α
  y : α
  z : α
  deriving DecidableEq

/-- The WHFast integrator scratch state initialized by `rebound_init`
(`r->ri_whfast.*`). C int flags that hold 0/1 are modelled as `Bool`. -/
structure WHFastScratch where
  corrector : ℤ
  safe_mode : Bool
  recalculate_jacobi_this_timestep : Bool
  is_synchronized : Bool
  allocated_N : ℤ
  timestep_warning : ℤ
  recalculate_jacobi_but_not_synchronized_warning : ℤ
  deriving DecidableEq

/-- The IAS15 integrator scratch state initialized by `rebound_init`
(`r->ri_ias15.*`). -/
structure IAS15Scratch (α : Type) where
  epsilon : α
  min_dt : α
  epsilon_global : α
  iterations_max_exceeded : ℤ
  deriving DecidableEq

/-- Modelled from the spec: the integrator variant tag (`r->integrator`); the
enum itself lives in `integrator.h`, outside `src/`. The spec names WHFast and
IAS15 as the variants of interest, with possibly others. -/
inductive IntegratorKind where
  | ias15
  | whfast
  | other
  deriving DecidableEq

/-- The simulation state `struct Rebound`, restricted to the fields that
`rebound.c` initializes, reads or writes.  The four callback-hook pointers are
modelled as registration flags (`= true` iff the C pointer is non-NULL); their
behaviour is supplied separately through `Hooks`. -/
structure Rebound (α : Type) where
  t : α
  G : α
  softening : α
  dt : α
  boxsize : α
  boxsize_x : α
  boxsize_y : α
  boxsize_z : α
  boxsize_max : α
  root_nx : ℤ
  root_ny : ℤ
  root_nz : ℤ
  root_n : ℤ
  N : ℤ
  Nmax : ℤ
  N_active : ℤ
  N_megno : ℤ
  exit_simulation : Bool
  exact_finish_time : Bool
  particles : List (Particle α)
  integrator : IntegratorKind
  force_is_velocitydependent : Bool
  additional_forces : Bool
  finished : Bool
  post_timestep : Bool
  post_timestep_modifications : Bool
  ri_whfast : WHFastScratch
  ri_ias15 : IAS15Scratch α
  deriving DecidableEq

/-- Modelled from the spec: behaviour of the registered user hooks (the C
function pointers `additional_forces`, `post_timestep`,
`post_timestep_modifications`); each may mutate the state arbitrarily.  A hook
is only invoked when the corresponding registration flag in `Rebound` is set. -/
structure Hooks (α : Type) where
  additional : Rebound α → Rebound α
  post : Rebound α → Rebound α
  postMod : Rebound α → Rebound α

/-- Modelled from the spec: the collaborator subsystems called by the step
orchestrator; their internals are outside `src/`, so each is an opaque state
transformer constrained only by hypotheses in individual theorems. -/
structure Collab (α : Type) where
  part1 : Rebound α → Rebound α
  part2 : Rebound α → Rebound α
  synchronize : Rebound α → Rebound α
  boundaries : Rebound α → Rebound α
  treeUpdate : Rebound α → Rebound α
  mpiDistribute : Rebound α → Rebound α
  treeGravityData : Rebound α → Rebound α
  essentialPrep : Rebound α → Rebound α
  essentialDistribute : Rebound α → Rebound α
  gravity : Rebound α → Rebound α
  gravityVar : Rebound α → Rebound α
  collSearch : Rebound α → Rebound α
  collResolve : Rebound α → Rebound α

/-- Build-time capability set: `tree` = TREE, `mpi` = MPI, `gravityTree` =
GRAVITY_TREE, `collisions` = (not COLLISIONS_NONE), `opengl` = OPENGL. -/
structure Config where
  tree : Bool
  mpi : Bool
  gravityTree : Bool
  collisions : Bool
  opengl : Bool
  deriving DecidableEq

/-- Observable events: one per collaborator call or hook invocation, plus
`stepCall` marking each orchestrator invocation by the loop controller and
`display` for the OPENGL branch. -/
inductive Ev where
  | part1
  | boundaries
  | treeUpdate
  | mpiDistribute
  | treeGravityData
  | essentialPrep
  | essentialDistribute
  | gravity
  | gravityVar
  | additionalForces
  | part2
  | sync
  | postModHook
  | collSearch
  | collResolve
  | stepCall
  | postHook
  | display
  deriving DecidableEq

variable {α : Type} [LinearOrderedCommRing α]

/-! ## The step orchestrator `rebound_step` (rebound.c lines 61-132)

The state threading is split into named stages so that theorems can refer to
the intermediate states at which the data-dependent conditions
(`r->N_megno`, `r->additional_forces`, `r->post_timestep_modifications`)
are read. -/

/-- Stage of `rebound_step` up to and including the optional tree / MPI /
gravity-tree maintenance (lines 64-96): `integrator_part1`,
`boundaries_check`, then the `#ifdef`-guarded index maintenance. -/
def stepPreGravity (cfg : Config) (c : Collab α) (r : Rebound α) : Rebound α :=
  let r1 := c.part1 r
  let r2 := c.boundaries r1
  let r3 := if cfg.tree then c.treeUpdate r2 else r2
  let r4 := if cfg.mpi then c.mpiDistribute r3 else r3
  if cfg.gravityTree then
    let ra := c.treeGravityData r4
    if cfg.mpi then c.essentialDistribute (c.essentialPrep ra) else ra
  else r4

/-- State after `gravity_calculate_acceleration` (line 99). -/
def stepR6 (cfg : Config) (c : Collab α) (r : Rebound α) : Rebound α :=
  c.gravity (stepPreGravity cfg c r)

/-- State after the conditional `gravity_calculate_variational_acceleration`
(lines 100-102), run iff `r->N_megno` is non-zero at that point. -/
def stepR7 (cfg : Config) (c : Collab α) (r : Rebound α) : Rebound α :=
  let r6 := stepR6 cfg c r
  if r6.N_megno ≠ 0 then c.gravityVar r6 else r6

/-- State after the conditional `additional_forces` hook (line 104). -/
def stepR8 (cfg : Config) (c : Collab α) (hooks : Hooks α) (r : Rebound α) : Rebound α :=
  let r7 := stepR7 cfg c r
  if r7.additional_forces then hooks.additional r7 else r7

/-- State after `integrator_part2` (line 109). -/
def stepR9 (cfg : Config) (c : Collab α) (hooks : Hooks α) (r : Rebound α) : Rebound α :=
  c.part2 (stepR8 cfg c hooks r)

/-- State after the conditional post-timestep-modifications block
(lines 110-114): forced `integrator_synchronize`, the hook itself, then
setting `ri_whfast.recalculate_jacobi_this_timestep = 1`. -/
def stepR10 (cfg : Config) (c : Collab α) (hooks : Hooks α) (r : Rebound α) : Rebound α :=
  let r9 := stepR9 cfg c hooks r
  if r9.post_timestep_modifications then
    let rb := hooks.postMod (c.synchronize r9)
    {rb with ri_whfast := {rb.ri_whfast with recalculate_jacobi_this_timestep := true}}
  else r9

/-- Final state of one step: the `#ifndef COLLISIONS_NONE` block
(lines 118-131): second `boundaries_check`, `collisions_search`,
`collisions_resolve`. -/
def stepR11 (cfg : Config) (c : Collab α) (hooks : Hooks α) (r : Rebound α) : Rebound α :=
  let r10 := stepR10 cfg c hooks r
  if cfg.collisions then c.collResolve (c.collSearch (c.boundaries r10)) else r10

/-- The event trace of one `rebound_step` call, in source order.  The
data-dependent conditions are evaluated at exactly the intermediate states at
which the C code reads them. -/
def stepTrace (cfg : Config) (c : Collab α) (hooks : Hooks α) (r : Rebound α) : List Ev :=
  [Ev.part1, Ev.boundaries]
    ++ (if cfg.tree then [Ev.treeUpdate] else [])
    ++ (if cfg.mpi then [Ev.mpiDistribute] else [])
    ++ (if cfg.gravityTree then
          [Ev.treeGravityData]
            ++ (if cfg.mpi then [Ev.essentialPrep, Ev.essentialDistribute] else [])
        else [])
    ++ [Ev.gravity]
    ++ (if (stepR6 cfg c r).N_megno ≠ 0 then [Ev.gravityVar] else [])
    ++ (if (stepR7 cfg c r).additional_forces then [Ev.additionalForces] else [])
    ++ [Ev.part2]
    ++ (if (stepR9 cfg c hooks r).post_timestep_modifications then
          [Ev.sync, Ev.postModHook]
        else [])
    ++ (if cfg.collisions then [Ev.boundaries, Ev.collSearch, Ev.collResolve] else [])

/-- `rebound_step` (lines 61-132): one orchestrated operator-split step,
returning the resulting state and the trace of collaborator/hook calls. -/
def rebound_step (cfg : Config) (c : Collab α) (hooks : Hooks α) (r : Rebound α) :
    Rebound α × List Ev :=
  (stepR11 cfg c hooks r, stepTrace cfg c hooks r)

/-! ## Initialization `rebound_init` (rebound.c lines 134-219) -/

/-- The defaulted state built by `rebound_init` before its root-box check
(lines 141-187); field for field from the source. -/
def reboundDefault : Rebound ℚ where
  t := 0
  G := 1
  softening := 0
  dt := 1/1000
  boxsize := -1
  boxsize_x := -1
  boxsize_y := -1
  boxsize_z := -1
  boxsize_max := -1
  root_nx := 1
  root_ny := 1
  root_nz := 1
  root_n := 1
  N := 0
  Nmax := 0
  N_active := -1
  N_megno := 0
  exit_simulation := false
  exact_finish_time := false
  particles := []
  integrator := IntegratorKind.ias15
  force_is_velocitydependent := false
  additional_forces := false
  finished := false
  post_timestep := false
  post_timestep_modifications := false
  ri_whfast :=
    { corrector := 0
      safe_mode := true
      recalculate_jacobi_this_timestep := false
      is_synchronized := true
      allocated_N := 0
      timestep_warning := 0
      recalculate_jacobi_but_not_synchronized_warning := 0 }
  ri_ias15 :=
    { epsilon := 1/1000000000
      min_dt := 0
      epsilon_global := 1
      iterations_max_exceeded := 0 }

/-- The root-box validation guard of `rebound_init` (line 189):
`root_nx <= 0 || root_ny <= 0 || root_nz <= 0`. -/
def rootBoxesInvalid (nx ny nz : ℤ) : Bool :=
  decide (nx ≤ 0) || decide (ny ≤ 0) || decide (nz ≤ 0)

/-- `rebound_init` (lines 134-219): builds the defaulted state and validates
the root-box counts; the fatal `exit(-1)` branch is modelled as `none`. -/
def rebound_init : Option (Rebound ℚ) :=
  let r := reboundDefault
  if rootBoxesInvalid r.root_nx r.root_ny r.root_nz then none else some r

/-! ## The loop controller `rebound_integrate` (rebound.c lines 221-297) -/

/-- `copysign(1., dt)` (line 228); `-1` for negative `dt`, `+1` otherwise
(C's positive zero gives `+1`). -/
def dtsignOf (dt : α) : α :=
  if dt < 0 then -1 else 1

/-- Squared distance from the origin computed by the escape check (line 260):
`p.x*p.x + p.y*p.y + p.z*p.z`. -/
def particleR2 (p : Particle α) : α :=
  p.x * p.x + p.y * p.y + p.z * p.z

/-- The escape check (lines 253-267): some particle among the first
`N - N_megno` has squared distance exceeding `maxR*maxR`.  The C loop reads
`particles[0..N-N_megno)`; the model takes that prefix of the list (for a
well-formed state the list has at least that many elements). -/
def escapeTriggered (r : Rebound α) (maxR : α) : Bool :=
  (r.particles.take (r.N - r.N_megno).toNat).any
    (fun p => decide (particleR2 p > maxR * maxR))

/-- Squared pairwise distance computed by the close-encounter check
(lines 277-280). -/
def pairDist2 (p q : Particle α) : α :=
  (p.x - q.x) * (p.x - q.x) + (p.y - q.y) * (p.y - q.y) + (p.z - q.z) * (p.z - q.z)

/-- The double loop of the close-encounter check (lines 273-288): some
unordered pair of distinct indices has squared distance below `minD2`. -/
def anyClosePair (minD2 : α) : List (Particle α) → Bool
  | [] => false
  | p :: rest =>
      rest.any (fun q => decide (pairDist2 p q < minD2)) || anyClosePair minD2 rest

/-- The close-encounter check (lines 268-289) over the first `N - N_megno`
particles. -/
def encounterTriggered (r : Rebound α) (minD : α) : Bool :=
  anyClosePair (minD * minD) (r.particles.take (r.N - r.N_megno).toNat)

/-- The monitoring tail of one loop iteration (lines 253-289): the escape
check may set the result code to 2, then the close-encounter check may set it
to 3; a check only assigns when its threshold is non-zero (C truthiness of
`maxR` / `minD`) and its condition triggers, otherwise the previous code is
kept. -/
def monitorRet (maxR minD : α) (r : Rebound α) (ret : ℤ) : ℤ :=
  let ret1 := if maxR ≠ 0 ∧ escapeTriggered r maxR = true then 2 else ret
  if minD ≠ 0 ∧ encounterTriggered r minD = true then 3 else ret1

/-- The loop-carried data of `rebound_integrate`: the mutable simulation
state plus the loop-local variables `dt_last_done`, `last_step`, `ret_value`
and the event trace accumulated so far. -/
structure LoopSt (α : Type) where
  r : Rebound α
  dtld : α
  lastStep : ℤ
  ret : ℤ
  tr : List Ev
  deriving DecidableEq

/-- The parameters fixed for one `rebound_integrate` call: configuration, the
orchestrator (with trace) as called on line 239, the hook behaviours, the
`integrator_synchronize` collaborator, the arguments `tmax`, `maxR`, `minD`,
and the direction sign computed once on line 228. -/
structure IntCtx (α : Type) where
  cfg : Config
  stepFn : Rebound α → Rebound α × List Ev
  hooks : Hooks α
  sync : Rebound α → Rebound α
  tmax : α
  maxR : α
  minD : α
  dtsign : α

/-- The `while` condition (line 234):
`t*dtsign < tmax*dtsign && last_step < 2 && ret_value == 0 &&
exit_simulation == 0`. -/
def whileCond (c : IntCtx α) (st : LoopSt α) : Prop :=
  st.r.t * c.dtsign < c.tmax * c.dtsign ∧ st.lastStep < 2 ∧ st.ret = 0 ∧
    st.r.exit_simulation = false

instance (c : IntCtx α) (st : LoopSt α) : Decidable (whileCond c st) := by
  unfold whileCond
  infer_instance

/-- The exact-finish-time re-check of one loop iteration (lines 245-251):
when the next prospective step would overshoot, force a synchronization,
shrink `dt` to land exactly on `tmax` and count the final step; otherwise
record the just-used `dt` as `dt_last_done`.  Returns the updated simulation
state, `dt_last_done`, `last_step` and trace. -/
def loopRecheck (c : IntCtx α) (r1 : Rebound α) (dtld : α) (ls : ℤ) (tr : List Ev) :
    Rebound α × α × ℤ × List Ev :=
  if (r1.t + r1.dt) * c.dtsign ≥ c.tmax * c.dtsign ∧ r1.exact_finish_time = true then
    let ra := c.sync r1
    ({ra with dt := c.tmax - ra.t}, dtld, ls + 1, tr ++ [Ev.sync])
  else (r1, r1.dt, ls, tr)

/-- One iteration of the loop body after the no-particle gate (lines 239-289):
the orchestrated step, the OPENGL display, the exact-finish-time re-check, the
`post_timestep` hook, and the two monitoring checks. -/
def loopIter (c : IntCtx α) (st : LoopSt α) : LoopSt α :=
  let s1 := c.stepFn st.r
  let tr2 := if c.cfg.opengl then st.tr ++ [Ev.stepCall] ++ s1.2 ++ [Ev.display]
             else st.tr ++ [Ev.stepCall] ++ s1.2
  let q := loopRecheck c s1.1 st.dtld st.lastStep tr2
  let q2 := if q.1.post_timestep then (c.hooks.post q.1, q.2.2.2 ++ [Ev.postHook])
            else (q.1, q.2.2.2)
  ⟨q2.1, q.2.1, q.2.2.1, monitorRet c.maxR c.minD q2.1 st.ret, q2.2⟩

/-- Loop exit discrimination: `normal` is falling out of the `while`
condition (flowing to lines 291-296); `fatal` is the early `return(1)` of the
no-particle gate (lines 235-238), which skips the final synchronization and
`dt` restoration. -/
inductive Outcome (α : Type) where
  | normal (st : LoopSt α)
  | fatal (st : LoopSt α)

/-- The fuel-indexed `while` loop (lines 234-290).  `none` means the fuel ran
out before the loop exited. -/
def integrateGo (c : IntCtx α) : ℕ → LoopSt α → Option (Outcome α)
  | 0, _ => none
  | fuel + 1, st =>
      if whileCond c st then
        if st.r.N ≤ 0 then some (Outcome.fatal st)
        else integrateGo c fuel (loopIter c st)
      else some (Outcome.normal st)

/-- The epilogue of `rebound_integrate`: the fatal path returns code 1 with
the state and trace as they were (lines 235-238); the normal path forces a
final `integrator_synchronize` and restores `dt` to `dt_last_done`
(lines 291-296) before returning `ret_value`. -/
def integrateFinish (sync : Rebound α → Rebound α) : Outcome α → ℤ × Rebound α × List Ev
  | Outcome.fatal st => (1, st.r, st.tr)
  | Outcome.normal st => (st.ret, {sync st.r with dt := st.dtld}, st.tr ++ [Ev.sync])

/-- The prologue of `rebound_integrate` (lines 225-233): capture
`dt_last_done = dt`, make the priming `post_timestep` call, and apply the
exact-finish-time pre-check, yielding the loop state at first entry
(`last_step` is 1 after a pre-check truncation, 0 otherwise; `ret_value` 0). -/
def integrateStart (hooks : Hooks α) (r : Rebound α) (tmax dtsign : α) : LoopSt α :=
  let r1 := if r.post_timestep then hooks.post r else r
  let tr1 : List Ev := if r.post_timestep then [Ev.postHook] else []
  if (r1.t + r1.dt) * dtsign ≥ tmax * dtsign ∧ r1.exact_finish_time = true then
    ⟨{r1 with dt := tmax - r1.t}, r.dt, 1, 0, tr1⟩
  else ⟨r1, r.dt, 0, 0, tr1⟩

/-- `rebound_integrate` (lines 221-297): prologue, loop, epilogue.  Returns
`(ret_value, final state, trace)`, or `none` when the fuel is exhausted. -/
def rebound_integrate (cfg : Config) (stepFn : Rebound α → Rebound α × List Ev)
    (hooks : Hooks α) (sync : Rebound α → Rebound α) (fuel : ℕ) (r : Rebound α)
    (tmax maxR minD : α) : Option (ℤ × Rebound α × List Ev) :=
  let dtsign := dtsignOf r.dt
  let c : IntCtx α := ⟨cfg, stepFn, hooks, sync, tmax, maxR, minD, dtsign⟩
  (integrateGo c fuel (integrateStart hooks r tmax dtsign)).map (integrateFinish sync)

/-! ## Concrete fixtures

Instantiations over `ℤ` used by counterexamples and witnesses.  `stepAdvance`
realizes the orchestrator contract of the spec ("on return, `time` has
advanced by exactly one `timestep`") in its simplest form: particles at rest,
no trace; `syncFlag` realizes the synchronize contract (force a consistent
state, here by raising `is_synchronized`). -/

/-- A minimal orchestrator effect: advance `t` by `dt`, leave everything else
(matching the spec scenario of zero velocity and zero force). -/
def stepAdvance : Rebound ℤ → Rebound ℤ × List Ev :=
  fun s => ({s with t := s.t + s.dt}, [])

/-- A minimal `integrator_synchronize` effect: raise `is_synchronized`. -/
def syncFlag : Rebound ℤ → Rebound ℤ :=
  fun s => {s with ri_whfast := {s.ri_whfast with is_synchronized := true}}

/-- Hook behaviours that leave the state unchanged. -/
def hooksId : Hooks ℤ := ⟨id, id, id⟩

/-- Collaborators that leave the state unchanged. -/
def collabId : Collab ℤ := ⟨id, id, id, id, id, id, id, id, id, id, id, id, id⟩

/-- Build with every optional subsystem disabled. -/
def cfgPlain : Config := ⟨false, false, false, false, false⟩

/-- Build with collisions enabled (COLLISIONS_NONE not defined) and the other
optional subsystems disabled. -/
def cfgColl : Config := ⟨false, false, false, true, false⟩

/-- A baseline integer-valued state mirroring the `rebound_init` defaults with
`dt = 1`. -/
def baseZ : Rebound ℤ where
  t := 0
  G := 1
  softening := 0
  dt := 1
  boxsize := -1
  boxsize_x := -1
  boxsize_y := -1
  boxsize_z := -1
  boxsize_max := -1
  root_nx := 1
  root_ny := 1
  root_nz := 1
  root_n := 1
  N := 0
  Nmax := 0
  N_active := -1
  N_megno := 0
  exit_simulation := false
  exact_finish_time := false
  particles := []
  integrator := IntegratorKind.ias15
  force_is_velocitydependent := false
  additional_forces := false
  finished := false
  post_timestep := false
  post_timestep_modifications := false
  ri_whfast :=
    { corrector := 0
      safe_mode := true
      recalculate_jacobi_this_timestep := false
      is_synchronized := true
      allocated_N := 0
      timestep_warning := 0
      recalculate_jacobi_but_not_synchronized_warning := 0 }
  ri_ias15 :=
    { epsilon := 0
      min_dt := 0
      epsilon_global := 1
      iterations_max_exceeded := 0 }

/-- Two particles, one at the origin and one at distance 10: triggers the
escape check for `maxR = 1`. -/
def rC1 : Rebound ℤ :=
  {baseZ with N := 2, particles := [⟨0,0,0⟩, ⟨10,0,0⟩]}

/-- Three particles such that for `maxR = 1, minD = 1` both the escape check
(distance 10 from the origin) and the close-encounter check (coincident pair)
trigger in the same iteration. -/
def rC2 : Rebound ℤ :=
  {baseZ with N := 3, particles := [⟨0,0,0⟩, ⟨10,0,0⟩, ⟨10,0,0⟩]}

/-- The post-step state of the `rC2` run (one step of `stepAdvance`). -/
def rC2after : Rebound ℤ := {rC2 with t := 1}

/-- No particles, `dt = 10`, exact finish time on: the pre-check truncates
`dt` before the loop hits the fatal no-particle gate. -/
def rC3 : Rebound ℤ :=
  {baseZ with dt := 10, exact_finish_time := true}

/-- One resting particle, `dt = 2`, exact finish time on: integrating to
`tmax = 5` (not a multiple of `dt`) exercises the truncation path. -/
def rC5 : Rebound ℤ :=
  {baseZ with N := 1, dt := 2, particles := [⟨0,0,0⟩], exact_finish_time := true}

/-- The final state of the `rC5` run to `tmax = 5`. -/
def rC5out : Rebound ℤ := {rC5 with t := 5}

/-- The trace of the `rC5` run to `tmax = 5`: three steps, the two truncation
synchronizations, the final synchronization. -/
def trC5 : List Ev :=
  [Ev.stepCall, Ev.stepCall, Ev.sync, Ev.stepCall, Ev.sync, Ev.sync]

/-- No particles but `t = 7` already beyond `tmax = 5`. -/
def rC6 : Rebound ℤ := {baseZ with t := 7}

/-- One particle with `t = 7` beyond `tmax = 5`, a registered `post_timestep`
hook and exact finish time on. -/
def rC10 : Rebound ℤ :=
  {baseZ with
    N := 1
    t := 7
    dt := 3
    particles := [⟨0,0,0⟩]
    post_timestep := true
    exact_finish_time := true}

/-- A two-particle state with no hooks registered, used with `cfgColl`. -/
def rPlain : Rebound ℤ := {baseZ with N := 2, particles := [⟨0,0,0⟩, ⟨1,0,0⟩]}

/-- Like `rPlain` but with the `post_timestep_modifications` hook registered. -/
def rMod : Rebound ℤ :=
  {baseZ with N := 1, particles := [⟨0,0,0⟩], post_timestep_modifications := true}

/-- One resting particle used for a clean full run to `tmax = 2`. -/
def rW : Rebound ℤ := {baseZ with N := 1, particles := [⟨0,0,0⟩]}

/-- The final state of the `rW` run to `tmax = 2`. -/
def rWout : Rebound ℤ := {rW with t := 2}

/-! ## Verification-side predicates -/

/-- Modelled from the spec: the orchestrator guarantee "on return, `time` has
advanced by exactly one `timestep`", plus frame conditions saying the step
does not alter the control-relevant configuration fields. -/
def stepExactAdvance (stepFn : Rebound α → Rebound α × List Ev) : Prop :=
  ∀ s, ((stepFn s).1).t = s.t + s.dt ∧ ((stepFn s).1).dt = s.dt ∧
    ((stepFn s).1).N = s.N ∧ ((stepFn s).1).exit_simulation = s.exit_simulation ∧
    ((stepFn s).1).exact_finish_time = s.exact_finish_time ∧
    ((stepFn s).1).post_timestep = s.post_timestep

/-- Modelled from the spec: `integrator_synchronize` forces a consistent
position/velocity state without touching simulation time or the
control-relevant configuration fields. -/
def syncPreserves (sync : Rebound α → Rebound α) : Prop :=
  ∀ s, (sync s).t = s.t ∧ (sync s).N = s.N ∧
    (sync s).exit_simulation = s.exit_simulation ∧
    (sync s).exact_finish_time = s.exact_finish_time ∧
    (sync s).post_timestep = s.post_timestep

/-- Invariant of the exact-finish-time run: the result code stays 0,
`dt_last_done` pins the entry `dt`, and the final-step counter tracks the
remaining distance to `tmax`:  before any truncation the next step still fits
strictly below `tmax`; after the first truncation `dt` is exactly the gap to
`tmax`; after the second the time has landed exactly on `tmax`. -/
def c5Inv (N0 : ℤ) (d tmax : α) (st : LoopSt α) : Prop :=
  st.r.exit_simulation = false ∧ st.r.exact_finish_time = true ∧
  st.r.post_timestep = false ∧ st.r.N = N0 ∧ st.ret = 0 ∧ st.dtld = d ∧
  ((st.lastStep = 0 ∧ st.r.dt = d ∧ st.r.t + d < tmax) ∨
   (st.lastStep = 1 ∧ st.r.dt = tmax - st.r.t ∧ st.r.t < tmax) ∨
   (st.lastStep = 2 ∧ st.r.t = tmax))

/-- Invariant of the `dt`-restoration argument: `dt_last_done` pins the entry
`dt` throughout the run, and the state's `dt` is either still the entry `dt`
or — only under `exact_finish_time` — the truncated gap `tmax - t` written by
the re-check.  The second disjunct is exactly the shape that makes the next
re-check take the truncation branch again, so the truncated `dt` is never
recorded as `dt_last_done`. -/
def c3Inv (d : α) (eft0 : Bool) (tmax : α) (st : LoopSt α) : Prop :=
  st.dtld = d ∧ st.r.exact_finish_time = eft0 ∧ st.r.post_timestep = false ∧
  (st.r.dt = d ∨ (eft0 = true ∧ st.r.dt = tmax - st.r.t))

/-- A concrete loop context for `ℤ` runs: no optional subsystems, the
minimal orchestrator and synchronize effects, `tmax = 5`, `maxR = 1`,
`minD = 0`, forward direction. -/
def ctxC1 : IntCtx ℤ := ⟨cfgPlain, stepAdvance, hooksId, syncFlag, 5, 1, 0, 1⟩

/-- The loop state of the `rC1` run right after its first iteration: the
escape signal has set `ret_value = 2` while the target time is still ahead. -/
def stC1 : LoopSt ℤ := ⟨{rC1 with t := 1}, 1, 0, 2, [Ev.stepCall]⟩

/-! ## Helper lemmas -/

/-- Membership in an `if`-selected list, split by the condition. -/
theorem mem_ite_list {β : Type} (p : Prop) [Decidable p] (x : β) (l1 l2 : List β) :
    x ∈ (if p then l1 else l2) ↔ (p ∧ x ∈ l1) ∨ (¬p ∧ x ∈ l2) := by
  by_cases h : p <;> simp [h]

/-- The last element of a list extended by a single element. -/
theorem getLast_append_single {β : Type} (l : List β) (a : β) :
    (l ++ [a]).getLast? = some a := by
  rw [List.getLast?_append_cons]
  rfl

/-! ## Claims about initialization -/

/-- Claim C8: `rebound_init` returns a state with `time = 0`, gravity
constant 1, softening 0, `timestep = 0.001`, a single root box in each axis,
zero particles, `active_particle_count = -1`, default integrator IAS15, all
four callback hooks unset, and the WHFast scratch defaulting to safe
synchronization mode with `is_synchronized` true. -/
theorem c8_init_defaults :
    rebound_init = some reboundDefault ∧
    reboundDefault.t = 0 ∧ reboundDefault.G = 1 ∧ reboundDefault.softening = 0 ∧
    reboundDefault.dt = 1/1000 ∧
    reboundDefault.root_nx = 1 ∧ reboundDefault.root_ny = 1 ∧
    reboundDefault.root_nz = 1 ∧
    reboundDefault.N = 0 ∧ reboundDefault.particles = [] ∧
    reboundDefault.N_active = -1 ∧
    reboundDefault.integrator = IntegratorKind.ias15 ∧
    reboundDefault.additional_forces = false ∧ reboundDefault.finished = false ∧
    reboundDefault.post_timestep = false ∧
    reboundDefault.post_timestep_modifications = false ∧
    reboundDefault.ri_whfast.safe_mode = true ∧
    reboundDefault.ri_whfast.is_synchronized = true :=
  ⟨rfl, rfl, rfl, rfl, rfl, rfl, rfl, rfl, rfl, rfl, rfl, rfl, rfl, rfl, rfl,
   rfl, rfl, rfl⟩

/-- Claim C9: initialization validates that each root box count is at least 1
and takes the fatal branch exactly when some count is below 1; at the point of
the check the counts are the just-assigned 1,1,1, so the branch never fires
and `rebound_init` returns the defaulted state. -/
theorem c9_root_box_validation :
    (∀ nx ny nz : ℤ, rootBoxesInvalid nx ny nz = true ↔ nx ≤ 0 ∨ ny ≤ 0 ∨ nz ≤ 0) ∧
    reboundDefault.root_nx = 1 ∧ reboundDefault.root_ny = 1 ∧
    reboundDefault.root_nz = 1 ∧
    rebound_init = some reboundDefault := by
  refine ⟨?_, rfl, rfl, rfl, rfl⟩
  intro nx ny nz
  simp [rootBoxesInvalid, or_assoc]

/-! ## Claims about the step orchestrator -/

/-- Claim C7: `rebound_step` executes its sub-phases in the fixed source
order: `part1`, boundary check, optional tree/exchange maintenance, gravity,
variational accelerations exactly when variational particles are present,
the `additional_forces` hook exactly when registered, `part2`, then — exactly
when a `post_timestep_modifications` hook is registered — a forced
synchronization followed by the hook, then the second boundary check followed
by collision search and resolution (when collisions are compiled in). -/
theorem c7_step_phase_order (cfg : Config) (c : Collab α) (hooks : Hooks α)
    (r : Rebound α) :
    ∃ bVar bAdd bMod : Bool,
      (rebound_step cfg c hooks r).2 =
        [Ev.part1, Ev.boundaries]
          ++ (if cfg.tree then [Ev.treeUpdate] else [])
          ++ (if cfg.mpi then [Ev.mpiDistribute] else [])
          ++ (if cfg.gravityTree then
                [Ev.treeGravityData]
                  ++ (if cfg.mpi then [Ev.essentialPrep, Ev.essentialDistribute] else [])
              else [])
          ++ [Ev.gravity]
          ++ (if bVar then [Ev.gravityVar] else [])
          ++ (if bAdd then [Ev.additionalForces] else [])
          ++ [Ev.part2]
          ++ (if bMod then [Ev.sync, Ev.postModHook] else [])
          ++ (if cfg.collisions then [Ev.boundaries, Ev.collSearch, Ev.collResolve] else []) ∧
      (bVar = true ↔ (stepR6 cfg c r).N_megno ≠ 0) ∧
      (bAdd = true ↔ (stepR7 cfg c r).additional_forces = true) ∧
      (bMod = true ↔ (stepR9 cfg c hooks r).post_timestep_modifications = true) := by
  refine ⟨decide ((stepR6 cfg c r).N_megno ≠ 0), (stepR7 cfg c r).additional_forces,
    (stepR9 cfg c hooks r).post_timestep_modifications, ?_, by simp, Iff.rfl, Iff.rfl⟩
  unfold rebound_step stepTrace
  by_cases h6 : (stepR6 cfg c r).N_megno ≠ 0 <;> simp [h6]

/-- Claim C4 (amended): within one `rebound_step`, synchronization is forced
immediately before the post-timestep-modifications hook whenever that hook
runs; but no synchronization guards collision detection — when the hook is
not registered at the `part2` point, the step performs no synchronization at
all, so collision search can observe an unsynchronized integrator state. -/
theorem c4_sync_only_for_postmod_hook :
    (∀ (cfg : Config) (c : Collab α) (hooks : Hooks α) (r : Rebound α),
       Ev.postModHook ∈ (rebound_step cfg c hooks r).2 →
       ∃ u v, (rebound_step cfg c hooks r).2 = u ++ Ev.sync :: Ev.postModHook :: v) ∧
    (∀ (cfg : Config) (c : Collab α) (hooks : Hooks α) (r : Rebound α),
       (stepR9 cfg c hooks r).post_timestep_modifications = false →
       Ev.sync ∉ (rebound_step cfg c hooks r).2) := by
  constructor
  · intro cfg c hooks r hm
    by_cases h9 : (stepR9 cfg c hooks r).post_timestep_modifications
    · refine ⟨[Ev.part1, Ev.boundaries]
          ++ (if cfg.tree then [Ev.treeUpdate] else [])
          ++ (if cfg.mpi then [Ev.mpiDistribute] else [])
          ++ (if cfg.gravityTree then
                [Ev.treeGravityData]
                  ++ (if cfg.mpi then [Ev.essentialPrep, Ev.essentialDistribute] else [])
              else [])
          ++ [Ev.gravity]
          ++ (if (stepR6 cfg c r).N_megno ≠ 0 then [Ev.gravityVar] else [])
          ++ (if (stepR7 cfg c r).additional_forces then [Ev.additionalForces] else [])
          ++ [Ev.part2],
        (if cfg.collisions then [Ev.boundaries, Ev.collSearch, Ev.collResolve] else []), ?_⟩
      unfold rebound_step stepTrace
      simp [h9]
    · exfalso
      revert hm
      unfold rebound_step stepTrace
      simp only [Bool.not_eq_true] at h9
      simp [mem_ite_list, h9]
  · intro cfg c hooks r h9
    unfold rebound_step stepTrace
    simp [mem_ite_list, h9]

/-- Counterexample to claim C4 as stated: with collisions enabled and no
post-timestep-modifications hook registered, one `rebound_step` runs
collision search with no synchronization anywhere in the step. -/
theorem c4_counterexample :
    (rebound_step cfgColl collabId hooksId rPlain).2 =
      [Ev.part1, Ev.boundaries, Ev.gravity, Ev.part2,
       Ev.boundaries, Ev.collSearch, Ev.collResolve] ∧
    Ev.collSearch ∈ (rebound_step cfgColl collabId hooksId rPlain).2 ∧
    Ev.sync ∉ (rebound_step cfgColl collabId hooksId rPlain).2 := by
  decide

/-- Witness for the amended C4 theorem at a concrete input with the hook
registered. -/
theorem c4_witness :
    Ev.postModHook ∈ (rebound_step cfgColl collabId hooksId rMod).2 ∧
    ∃ u v, (rebound_step cfgColl collabId hooksId rMod).2 =
      u ++ Ev.sync :: Ev.postModHook :: v :=
  ⟨by decide, c4_sync_only_for_postmod_hook.1 cfgColl collabId hooksId rMod (by decide)⟩

/-! ## Claims about the loop controller: monitoring signals -/

/-- Claim C1 (amended): the escape and close-encounter codes terminate the
integration loop rather than letting it continue: the `while` condition
requires `ret_value = 0`, so any loop state carrying a non-zero code exits
immediately, executing no further steps. -/
theorem c1_nonzero_code_stops_loop (c : IntCtx α) (fuel : ℕ) (st : LoopSt α)
    (h : st.ret ≠ 0) :
    integrateGo c (fuel + 1) st = some (Outcome.normal st) := by
  simp only [integrateGo]
  rw [if_neg]
  intro hw
  exact h hw.2.2.1

/-- Witness for the amended C1 theorem at the concrete post-escape loop
state. -/
theorem c1_witness :
    stC1.ret ≠ 0 ∧ integrateGo ctxC1 1 stC1 = some (Outcome.normal stC1) :=
  ⟨by decide, c1_nonzero_code_stops_loop ctxC1 0 stC1 (by decide)⟩

/-- Counterexample to claim C1 as stated: in the `rC1` run the escape signal
fires in the first iteration (result code 2) while the final time 1 is still
short of `tmax = 5` and no other termination condition holds, yet the trace
shows exactly one orchestrator call: the loop stopped instead of continuing. -/
theorem c1_counterexample :
    (rebound_integrate cfgPlain stepAdvance hooksId syncFlag 8 rC1 5 1 0).map
      (fun o => (o.1, o.2.1.t, o.2.1.exit_simulation, o.2.2)) =
      some (2, 1, false, [Ev.stepCall, Ev.sync]) ∧
    ((1:ℤ) * 1 < 5 * 1) := by
  decide

/-- Claim C2 (amended): when the escape condition and the close-encounter
condition both trigger in the same iteration, the close-encounter check —
which runs second — overwrites the escape code, so the resulting code is 3,
not 2: close encounter takes priority. -/
theorem c2_encounter_code_wins (maxR minD : α) (r : Rebound α) (ret : ℤ)
    (hR : maxR ≠ 0) (hE : escapeTriggered r maxR = true)
    (hD : minD ≠ 0) (hC : encounterTriggered r minD = true) :
    monitorRet maxR minD r ret = 3 := by
  unfold monitorRet
  rw [if_pos ⟨hD, hC⟩]

/-- Witness for the amended C2 theorem at the concrete post-step state where
both checks trigger. -/
theorem c2_witness :
    escapeTriggered rC2after (1:ℤ) = true ∧ encounterTriggered rC2after (1:ℤ) = true ∧
    monitorRet (1:ℤ) 1 rC2after 0 = 3 :=
  ⟨by decide, by decide,
   c2_encounter_code_wins 1 1 rC2after 0 (by decide) (by decide) (by decide) (by decide)⟩

/-- Counterexample to claim C2 as stated: in the `rC2` run both the escape
check and the close-encounter check trigger in the same (first) iteration,
and the returned result code is 3, not the claimed 2. -/
theorem c2_counterexample :
    escapeTriggered rC2after (1:ℤ) = true ∧ encounterTriggered rC2after (1:ℤ) = true ∧
    (rebound_integrate cfgPlain stepAdvance hooksId syncFlag 8 rC2 5 1 1).map
      (fun o => o.1) = some 3 := by
  decide

/-! ## Shared facts about the loop -/

/-- When the `while` condition fails, the loop exits normally with the state
unchanged. -/
theorem integrateGo_exit (c : IntCtx α) (fuel : ℕ) (st : LoopSt α)
    (h : ¬ whileCond c st) :
    integrateGo c (fuel + 1) st = some (Outcome.normal st) := by
  simp only [integrateGo]
  rw [if_neg h]

/-- When the `while` condition holds and the no-particle gate fires, the loop
returns the fatal outcome with the state unchanged. -/
theorem integrateGo_fatal (c : IntCtx α) (fuel : ℕ) (st : LoopSt α)
    (hw : whileCond c st) (hN : st.r.N ≤ 0) :
    integrateGo c (fuel + 1) st = some (Outcome.fatal st) := by
  simp only [integrateGo]
  rw [if_pos hw, if_pos hN]

/-- When the `while` condition holds and particles remain, the loop performs
one iteration. -/
theorem integrateGo_enter (c : IntCtx α) (fuel : ℕ) (st : LoopSt α)
    (hw : whileCond c st) (hN : ¬ st.r.N ≤ 0) :
    integrateGo c (fuel + 1) st = integrateGo c fuel (loopIter c st) := by
  simp only [integrateGo]
  rw [if_pos hw, if_neg hN]

/-- The re-check when the next prospective step overshoots under
`exact_finish_time`: synchronize, truncate `dt`, count the final step. -/
theorem loopRecheck_pos (c : IntCtx α) (r1 : Rebound α) (dtld : α) (ls : ℤ)
    (tr : List Ev)
    (h : (r1.t + r1.dt) * c.dtsign ≥ c.tmax * c.dtsign ∧ r1.exact_finish_time = true) :
    loopRecheck c r1 dtld ls tr =
      ({c.sync r1 with dt := c.tmax - (c.sync r1).t}, dtld, ls + 1, tr ++ [Ev.sync]) := by
  unfold loopRecheck
  rw [if_pos h]

/-- The re-check when no truncation applies: record the just-used `dt` as
`dt_last_done`. -/
theorem loopRecheck_neg (c : IntCtx α) (r1 : Rebound α) (dtld : α) (ls : ℤ)
    (tr : List Ev)
    (h : ¬ ((r1.t + r1.dt) * c.dtsign ≥ c.tmax * c.dtsign ∧ r1.exact_finish_time = true)) :
    loopRecheck c r1 dtld ls tr = (r1, r1.dt, ls, tr) := by
  unfold loopRecheck
  rw [if_neg h]

/-- The prologue state: result code 0, a final-step counter below 2,
`dt_last_done` equal to the entry `dt`, and the time, exit flag, particle
count and trace determined by whether the priming hook ran. -/
theorem integrateStart_fields (hooks : Hooks α) (r : Rebound α) (tmax dtsign : α) :
    (integrateStart hooks r tmax dtsign).ret = 0 ∧
    (integrateStart hooks r tmax dtsign).lastStep < 2 ∧
    (integrateStart hooks r tmax dtsign).dtld = r.dt ∧
    (integrateStart hooks r tmax dtsign).r.t =
      (if r.post_timestep then hooks.post r else r).t ∧
    (integrateStart hooks r tmax dtsign).r.exit_simulation =
      (if r.post_timestep then hooks.post r else r).exit_simulation ∧
    (integrateStart hooks r tmax dtsign).r.N =
      (if r.post_timestep then hooks.post r else r).N ∧
    (integrateStart hooks r tmax dtsign).tr =
      (if r.post_timestep then [Ev.postHook] else []) := by
  unfold integrateStart
  by_cases hp : r.post_timestep <;> simp [hp] <;> split <;> simp

/-- The result code written by the monitoring checks is the incoming code, 2,
or 3. -/
theorem monitorRet_mem (maxR minD : α) (r : Rebound α) (ret : ℤ) :
    monitorRet maxR minD r ret = ret ∨ monitorRet maxR minD r ret = 2 ∨
      monitorRet maxR minD r ret = 3 := by
  unfold monitorRet
  split_ifs <;> tauto

/-- One loop iteration leaves the result code unchanged or sets it to 2 or 3. -/
theorem loopIter_ret (c : IntCtx α) (st : LoopSt α) :
    (loopIter c st).ret = st.ret ∨ (loopIter c st).ret = 2 ∨
      (loopIter c st).ret = 3 := by
  simp only [loopIter]
  exact monitorRet_mem _ _ _ _

/-- Any outcome of the loop: a fatal outcome carries a non-positive particle
count (it can only arise from the no-particle gate), and a normal outcome
carries a result code in {0, 2, 3}. -/
theorem integrateGo_codes (c : IntCtx α) :
    ∀ (fuel : ℕ) (st : LoopSt α) (out : Outcome α),
      (st.ret = 0 ∨ st.ret = 2 ∨ st.ret = 3) → integrateGo c fuel st = some out →
      (∀ st2, out = Outcome.fatal st2 → st2.r.N ≤ 0) ∧
      (∀ st2, out = Outcome.normal st2 → st2.ret = 0 ∨ st2.ret = 2 ∨ st2.ret = 3) := by
  intro fuel
  induction fuel with
  | zero =>
      intro st out h hgo
      exact absurd hgo (by simp [integrateGo])
  | succ n ih =>
      intro st out h hgo
      by_cases hw : whileCond c st
      · by_cases hN : st.r.N ≤ 0
        · rw [integrateGo_fatal c n st hw hN] at hgo
          injection hgo with hout
          subst hout
          constructor
          · intro st2 heq
            cases heq
            exact hN
          · intro st2 heq
            cases heq
        · rw [integrateGo_enter c n st hw hN] at hgo
          refine ih (loopIter c st) out ?_ hgo
          rcases loopIter_ret c st with h' | h' | h' <;> rw [h'] <;> tauto
      · rw [integrateGo_exit c n st hw] at hgo
        injection hgo with hout
        subst hout
        constructor
        · intro st2 heq
          cases heq
        · intro st2 heq
          cases heq
          exact h

/-! ## Claims about the loop controller: entry, exit and error paths -/

/-- Claim C10: on a non-empty state whose time has already reached or passed
`tmax` in the integration direction, `rebound_integrate` executes no step and
returns 0, still makes the priming `post_timestep` call (once, when
registered) and the final synchronization, and returns with `time` and
`timestep` at their entry values — even when the exact-finish-time pre-check
temporarily overwrote `timestep`. -/
theorem c10_no_step_when_past_tmax (cfg : Config)
    (stepFn : Rebound α → Rebound α × List Ev) (hooks : Hooks α)
    (sync : Rebound α → Rebound α) (n : ℕ) (r : Rebound α) (tmax maxR minD : α)
    (hN : 0 < r.N)
    (hsync_t : ∀ s, (sync s).t = s.t)
    (hhook_t : ∀ s, (hooks.post s).t = s.t)
    (ht : tmax * dtsignOf r.dt ≤ r.t * dtsignOf r.dt) :
    ∃ r' tr, rebound_integrate cfg stepFn hooks sync (n + 1) r tmax maxR minD =
        some (0, r', tr) ∧
      r'.t = r.t ∧ r'.dt = r.dt ∧
      tr.count Ev.postHook = (if r.post_timestep then 1 else 0) ∧
      Ev.stepCall ∉ tr ∧ tr.getLast? = some Ev.sync := by
  obtain ⟨h0, h1, h2, h3, h4, h5, h6⟩ := integrateStart_fields hooks r tmax (dtsignOf r.dt)
  set st0 := integrateStart hooks r tmax (dtsignOf r.dt) with hst0
  have ht0 : st0.r.t = r.t := by
    rw [h3]
    split
    · exact hhook_t r
    · rfl
  have hnw : ¬ whileCond ⟨cfg, stepFn, hooks, sync, tmax, maxR, minD, dtsignOf r.dt⟩ st0 := by
    intro hw
    have hlt := hw.1
    rw [ht0] at hlt
    exact absurd hlt (not_lt.mpr ht)
  refine ⟨{sync st0.r with dt := st0.dtld}, st0.tr ++ [Ev.sync], ?_, ?_, ?_, ?_, ?_, ?_⟩
  · show Option.map (integrateFinish sync)
        (integrateGo ⟨cfg, stepFn, hooks, sync, tmax, maxR, minD, dtsignOf r.dt⟩ (n + 1) st0) =
      some (0, {sync st0.r with dt := st0.dtld}, st0.tr ++ [Ev.sync])
    rw [integrateGo_exit _ n _ hnw]
    simp [integrateFinish, h0]
  · show (sync st0.r).t = r.t
    rw [hsync_t, ht0]
  · show st0.dtld = r.dt
    exact h2
  · rw [h6]
    by_cases hp : r.post_timestep <;> simp [hp]
  · rw [h6]
    by_cases hp : r.post_timestep <;> simp [hp]
  · exact getLast_append_single _ _

/-- Witness for C10 at the concrete state `rC10` (time 7 past `tmax = 5`,
priming hook registered, exact finish time on). -/
theorem c10_witness :
    ∃ r' tr, rebound_integrate cfgPlain stepAdvance hooksId syncFlag 8 rC10 5 0 0 =
        some (0, r', tr) ∧
      r'.t = rC10.t ∧ r'.dt = rC10.dt ∧
      tr.count Ev.postHook = (if rC10.post_timestep then 1 else 0) ∧
      Ev.stepCall ∉ tr ∧ tr.getLast? = some Ev.sync :=
  c10_no_step_when_past_tmax cfgPlain stepAdvance hooksId syncFlag 7 rC10 5 0 0
    (by decide) (fun s => rfl) (fun s => rfl) (by decide)

/-- Claim C6 (amended): with no particles, the loop returns code 1 with time
unchanged provided the loop is actually entered (time short of `tmax` in the
integration direction, no exit request, no priming hook registered); when the
time has already reached `tmax` the loop body never runs, the no-particle gate
is never consulted, and 0 is returned.  Conversely, code 1 arises only from
the no-particle gate: a result of 1 implies the returned state has a
non-positive particle count. -/
theorem c6_no_particles_fatal :
    (∀ (cfg : Config) (stepFn : Rebound α → Rebound α × List Ev) (hooks : Hooks α)
        (sync : Rebound α → Rebound α) (n : ℕ) (r : Rebound α) (tmax maxR minD : α),
        r.post_timestep = false → r.N ≤ 0 → r.exit_simulation = false →
        r.t * dtsignOf r.dt < tmax * dtsignOf r.dt →
        ∃ r' tr, rebound_integrate cfg stepFn hooks sync (n + 1) r tmax maxR minD =
            some (1, r', tr) ∧ r'.t = r.t) ∧
    (∀ (cfg : Config) (stepFn : Rebound α → Rebound α × List Ev) (hooks : Hooks α)
        (sync : Rebound α → Rebound α) (fuel : ℕ) (r : Rebound α)
        (tmax maxR minD : α) (code : ℤ) (r' : Rebound α) (tr : List Ev),
        rebound_integrate cfg stepFn hooks sync fuel r tmax maxR minD =
          some (code, r', tr) →
        code = 1 → r'.N ≤ 0) := by
  constructor
  · intro cfg stepFn hooks sync n r tmax maxR minD hpost hN hexit ht
    obtain ⟨h0, h1, h2, h3, h4, h5, h6⟩ := integrateStart_fields hooks r tmax (dtsignOf r.dt)
    simp only [hpost, Bool.false_eq_true, if_false] at h3 h4 h5 h6
    set st0 := integrateStart hooks r tmax (dtsignOf r.dt) with hst0
    have hw : whileCond ⟨cfg, stepFn, hooks, sync, tmax, maxR, minD, dtsignOf r.dt⟩ st0 := by
      refine ⟨?_, h1, h0, ?_⟩
      · rw [h3]
        exact ht
      · rw [h4]
        exact hexit
    refine ⟨st0.r, st0.tr, ?_, h3⟩
    show Option.map (integrateFinish sync)
        (integrateGo ⟨cfg, stepFn, hooks, sync, tmax, maxR, minD, dtsignOf r.dt⟩ (n + 1) st0) =
      some (1, st0.r, st0.tr)
    rw [integrateGo_fatal _ n _ hw (by rw [h5]; exact hN)]
    simp [integrateFinish]
  · intro cfg stepFn hooks sync fuel r tmax maxR minD code r' tr hres hcode
    simp only [rebound_integrate] at hres
    obtain ⟨o, hgo, hfin⟩ := Option.map_eq_some'.mp hres
    obtain ⟨hfat, hnorm⟩ := integrateGo_codes _ fuel _ o
      (Or.inl (integrateStart_fields hooks r tmax (dtsignOf r.dt)).1) hgo
    cases o with
    | fatal st =>
        have hfin' : ((1 : ℤ), st.r, st.tr) = (code, r', tr) := hfin
        obtain ⟨hc, hr, htr⟩ : (1 : ℤ) = code ∧ st.r = r' ∧ st.tr = tr := by
          simpa using hfin'
        rw [← hr]
        exact hfat st rfl
    | normal st =>
        exfalso
        have hfin' : (st.ret, ({sync st.r with dt := st.dtld} : Rebound α),
            st.tr ++ [Ev.sync]) = (code, r', tr) := hfin
        obtain ⟨hc, hr, htr⟩ : st.ret = code ∧ _ ∧ _ := by
          simpa using hfin'
        rw [hcode] at hc
        rcases hnorm st rfl with h' | h' | h' <;> rw [h'] at hc <;> exact absurd hc (by decide)

/-- Counterexample to claim C6 as stated: `rC6` has no particles, yet because
its time 7 already lies beyond `tmax = 5` the loop never runs and
`rebound_integrate` returns 0, not 1. -/
theorem c6_counterexample :
    rC6.N = 0 ∧
    (rebound_integrate cfgPlain stepAdvance hooksId syncFlag 8 rC6 5 0 0).map
      (fun o => o.1) = some 0 := by
  decide

/-- Witness for the amended C6 theorem at the concrete empty state `baseZ`. -/
theorem c6_witness :
    ∃ r' tr, rebound_integrate cfgPlain stepAdvance hooksId syncFlag 8 baseZ 5 0 0 =
        some (1, r', tr) ∧ r'.t = baseZ.t :=
  c6_no_particles_fatal.1 cfgPlain stepAdvance hooksId syncFlag 7 baseZ 5 0 0
    (by decide) (by decide) (by decide) (by decide)

/-- Preservation of the `dt`-restoration invariant by one loop iteration,
for an exactly-advancing orchestrator: in the untruncated re-check branch
`dt_last_done` is (re)written with the entry `dt`; in the truncated branch it
is left alone, and the truncated state keeps the shape `dt = tmax - t`, which
forces the next re-check back into the truncated branch — so a truncated `dt`
is never recorded as `dt_last_done`, under either monitoring threshold and
either integration direction. -/
theorem c3Inv_iter (c : IntCtx α) (d : α) (eft0 : Bool)
    (hstep : stepExactAdvance c.stepFn) (hsync : syncPreserves c.sync)
    (st : LoopSt α) (hwc : whileCond c st) (hinv : c3Inv d eft0 c.tmax st) :
    c3Inv d eft0 c.tmax (loopIter c st) := by
  obtain ⟨hdtld, heft, hpost, hcase⟩ := hinv
  obtain ⟨s_t, s_dt, s_N, s_exit, s_eft, s_post⟩ := hstep st.r
  obtain ⟨y_t, y_N, y_exit, y_eft, y_post⟩ := hsync ((c.stepFn st.r).1)
  have r1post : ((c.stepFn st.r).1).post_timestep = false := by
    rw [s_post]
    exact hpost
  have r1eft : ((c.stepFn st.r).1).exact_finish_time = eft0 := by
    rw [s_eft]
    exact heft
  rcases hcase with hdt | ⟨heft0, hdt⟩
  · -- the state still carries the entry dt
    by_cases hcond : (((c.stepFn st.r).1).t + ((c.stepFn st.r).1).dt) * c.dtsign ≥
        c.tmax * c.dtsign ∧ ((c.stepFn st.r).1).exact_finish_time = true
    · have hq := loopRecheck_pos c ((c.stepFn st.r).1) st.dtld st.lastStep
        (if c.cfg.opengl then st.tr ++ [Ev.stepCall] ++ (c.stepFn st.r).2 ++ [Ev.display]
         else st.tr ++ [Ev.stepCall] ++ (c.stepFn st.r).2) hcond
      simp only [loopIter]
      rw [hq, if_neg (show ¬ (({c.sync ((c.stepFn st.r).1) with
            dt := c.tmax - (c.sync ((c.stepFn st.r).1)).t} : Rebound α).post_timestep = true)
          from by simp [y_post, r1post])]
      refine ⟨hdtld, ?_, ?_, Or.inr ⟨r1eft.symm.trans hcond.2, rfl⟩⟩
      · show (c.sync ((c.stepFn st.r).1)).exact_finish_time = eft0
        rw [y_eft]
        exact r1eft
      · show (c.sync ((c.stepFn st.r).1)).post_timestep = false
        rw [y_post]
        exact r1post
    · have hq := loopRecheck_neg c ((c.stepFn st.r).1) st.dtld st.lastStep
        (if c.cfg.opengl then st.tr ++ [Ev.stepCall] ++ (c.stepFn st.r).2 ++ [Ev.display]
         else st.tr ++ [Ev.stepCall] ++ (c.stepFn st.r).2) hcond
      simp only [loopIter]
      rw [hq, if_neg (show ¬ (((c.stepFn st.r).1).post_timestep = true) from by
        simp [r1post])]
      refine ⟨?_, r1eft, r1post, Or.inl ?_⟩
      · show ((c.stepFn st.r).1).dt = d
        rw [s_dt]
        exact hdt
      · show ((c.stepFn st.r).1).dt = d
        rw [s_dt]
        exact hdt
  · -- the state carries a truncated dt = tmax - t (so eft0 = true):
    -- the step lands on tmax and the re-check truncates again
    have hr1t : ((c.stepFn st.r).1).t = c.tmax := by
      rw [s_t, hdt]
      ring
    have hge : (((c.stepFn st.r).1).t + ((c.stepFn st.r).1).dt) * c.dtsign ≥
        c.tmax * c.dtsign := by
      have h0 : 0 ≤ (c.tmax - st.r.t) * c.dtsign := by
        rw [sub_mul]
        have h1 := hwc.1
        linarith
      rw [hr1t, s_dt, hdt, add_mul]
      linarith
    have hq := loopRecheck_pos c ((c.stepFn st.r).1) st.dtld st.lastStep
      (if c.cfg.opengl then st.tr ++ [Ev.stepCall] ++ (c.stepFn st.r).2 ++ [Ev.display]
       else st.tr ++ [Ev.stepCall] ++ (c.stepFn st.r).2)
      ⟨hge, by rw [r1eft]; exact heft0⟩
    simp only [loopIter]
    rw [hq, if_neg (show ¬ (({c.sync ((c.stepFn st.r).1) with
          dt := c.tmax - (c.sync ((c.stepFn st.r).1)).t} : Rebound α).post_timestep = true)
        from by simp [y_post, r1post])]
    refine ⟨hdtld, ?_, ?_, Or.inr ⟨heft0, rfl⟩⟩
    · show (c.sync ((c.stepFn st.r).1)).exact_finish_time = eft0
      rw [y_eft]
      exact r1eft
    · show (c.sync ((c.stepFn st.r).1)).post_timestep = false
      rw [y_post]
      exact r1post

/-- Every normal loop outcome carries `dt_last_done` equal to the entry `dt`,
across truncated and untruncated iterations alike. -/
theorem integrateGo_dtld_restore (c : IntCtx α) (d : α) (eft0 : Bool)
    (hstep : stepExactAdvance c.stepFn) (hsync : syncPreserves c.sync) :
    ∀ (fuel : ℕ) (st : LoopSt α) (out : Outcome α),
      c3Inv d eft0 c.tmax st → integrateGo c fuel st = some out →
      ∀ st2, out = Outcome.normal st2 → st2.dtld = d := by
  intro fuel
  induction fuel with
  | zero =>
      intro st out hinv hgo
      exact absurd hgo (by simp [integrateGo])
  | succ n ih =>
      intro st out hinv hgo
      by_cases hw : whileCond c st
      · by_cases hN : st.r.N ≤ 0
        · rw [integrateGo_fatal c n st hw hN] at hgo
          injection hgo with hout
          subst hout
          intro st2 heq
          cases heq
        · rw [integrateGo_enter c n st hw hN] at hgo
          exact ih (loopIter c st) out (c3Inv_iter c d eft0 hstep hsync st hw hinv) hgo
      · rw [integrateGo_exit c n st hw] at hgo
        injection hgo with hout
        subst hout
        intro st2 heq
        cases heq
        exact hinv.1

/-- The prologue establishes the `dt`-restoration invariant: the pre-check
either leaves `dt` at the entry value or truncates it to `tmax - t` under
`exact_finish_time`, and `dt_last_done` is the entry `dt` either way. -/
theorem integrateStart_c3Inv (hooks : Hooks α) (r : Rebound α) (tmax dtsign : α)
    (hpost : r.post_timestep = false) :
    c3Inv r.dt r.exact_finish_time tmax (integrateStart hooks r tmax dtsign) := by
  unfold integrateStart
  simp only [hpost, Bool.false_eq_true, if_false]
  split
  · rename_i hcond
    exact ⟨rfl, rfl, rfl, Or.inr ⟨hcond.2, rfl⟩⟩
  · exact ⟨rfl, rfl, hpost, Or.inl rfl⟩

/-- Claim C3 (amended): on every non-fatal exit path of `rebound_integrate`
(reaching `tmax` with or without exact-finish-time truncation, escape or
close-encounter detection, cooperative cancellation) the function performs
the final synchronization — the trace ends with the synchronize event — and
restores `dt` to the last completed un-truncated step size: for an
exactly-advancing orchestrator with no priming hook this is the entry `dt`,
undoing any truncation the re-check applied.  The fatal no-particles path
(code 1) skips both. -/
theorem c3_exit_epilogue :
    (∀ (cfg : Config) (stepFn : Rebound α → Rebound α × List Ev) (hooks : Hooks α)
        (sync : Rebound α → Rebound α) (fuel : ℕ) (r : Rebound α)
        (tmax maxR minD : α) (code : ℤ) (r' : Rebound α) (tr : List Ev),
        rebound_integrate cfg stepFn hooks sync fuel r tmax maxR minD =
          some (code, r', tr) →
        code ≠ 1 → tr.getLast? = some Ev.sync) ∧
    (∀ (cfg : Config) (stepFn : Rebound α → Rebound α × List Ev) (hooks : Hooks α)
        (sync : Rebound α → Rebound α) (fuel : ℕ) (r : Rebound α)
        (tmax maxR minD : α) (code : ℤ) (r' : Rebound α) (tr : List Ev),
        stepExactAdvance stepFn → syncPreserves sync →
        r.post_timestep = false →
        rebound_integrate cfg stepFn hooks sync fuel r tmax maxR minD =
          some (code, r', tr) →
        code ≠ 1 → r'.dt = r.dt) := by
  constructor
  · intro cfg stepFn hooks sync fuel r tmax maxR minD code r' tr hres hcode
    simp only [rebound_integrate] at hres
    obtain ⟨o, hgo, hfin⟩ := Option.map_eq_some'.mp hres
    cases o with
    | fatal st =>
        exfalso
        apply hcode
        have hfin' : ((1 : ℤ), st.r, st.tr) = (code, r', tr) := hfin
        exact (congrArg Prod.fst hfin').symm
    | normal st =>
        have hfin' : (st.ret, ({sync st.r with dt := st.dtld} : Rebound α),
            st.tr ++ [Ev.sync]) = (code, r', tr) := hfin
        obtain ⟨hc, hr, htr⟩ : _ ∧ _ ∧ st.tr ++ [Ev.sync] = tr := by
          simpa using hfin'
        rw [← htr]
        exact getLast_append_single _ _
  · intro cfg stepFn hooks sync fuel r tmax maxR minD code r' tr hstep hsync hpost
      hres hcode
    simp only [rebound_integrate] at hres
    obtain ⟨o, hgo, hfin⟩ := Option.map_eq_some'.mp hres
    cases o with
    | fatal st =>
        exfalso
        apply hcode
        have hfin' : ((1 : ℤ), st.r, st.tr) = (code, r', tr) := hfin
        exact (congrArg Prod.fst hfin').symm
    | normal st =>
        have hst : st.dtld = r.dt :=
          integrateGo_dtld_restore
            ⟨cfg, stepFn, hooks, sync, tmax, maxR, minD, dtsignOf r.dt⟩
            r.dt r.exact_finish_time hstep hsync fuel _ (Outcome.normal st)
            (integrateStart_c3Inv hooks r tmax (dtsignOf r.dt) hpost) hgo st rfl
        have hfin' : (st.ret, ({sync st.r with dt := st.dtld} : Rebound α),
            st.tr ++ [Ev.sync]) = (code, r', tr) := hfin
        obtain ⟨hc, hr, htr⟩ : _ ∧ ({sync st.r with dt := st.dtld} : Rebound α) = r' ∧ _ := by
          simpa using hfin'
        rw [← hr]
        show st.dtld = r.dt
        exact hst

/-- Counterexample to claim C3 as stated: the fatal no-particles exit of the
`rC3` run returns code 1 with `dt` still truncated to 5 (the entry value was
10, never restored) and an empty trace (no final synchronization). -/
theorem c3_counterexample :
    rC3.dt = 10 ∧ rC3.N = 0 ∧
    (rebound_integrate cfgPlain stepAdvance hooksId syncFlag 8 rC3 5 0 0).map
      (fun o => (o.1, o.2.1.dt, o.2.2)) = some (1, 5, ([] : List Ev)) := by
  decide

/-- Witness for the amended C3 theorem: the sync clause on the clean `rW` run
to `tmax = 2`, and the restore clause on the truncated `rC5` run (`dt = 2`,
`tmax = 5`), whose re-check shrank `dt` twice before the epilogue restored
the entry value. -/
theorem c3_witness :
    [Ev.stepCall, Ev.stepCall, Ev.sync].getLast? = some Ev.sync ∧ rC5out.dt = rC5.dt :=
  ⟨c3_exit_epilogue.1 cfgPlain stepAdvance hooksId syncFlag 8 rW 2 0 0 0 rWout
      [Ev.stepCall, Ev.stepCall, Ev.sync] (by decide) (by decide),
   c3_exit_epilogue.2 cfgPlain stepAdvance hooksId syncFlag 8 rC5 5 0 0 0 rC5out trC5
      (fun s => ⟨rfl, rfl, rfl, rfl, rfl, rfl⟩) (fun s => ⟨rfl, rfl, rfl, rfl, rfl⟩)
      (by decide) (by decide) (by decide)⟩


/-! ## Claim C5: the exact-finish-time landing -/

/-- With both monitoring thresholds zero (C falsy), the monitoring checks
leave the result code unchanged. -/
theorem monitorRet_zero (r : Rebound α) (ret : ℤ) :
    monitorRet (0 : α) 0 r ret = ret := by
  unfold monitorRet
  simp

/-- Preservation of the exact-finish-time invariant by one loop iteration
(forward direction, monitoring off, no priming hook, exactly-advancing step). -/
theorem c5Inv_iter (c : IntCtx α) (N0 : ℤ) (d : α) (hd : 0 < d)
    (hstep : stepExactAdvance c.stepFn) (hsync : syncPreserves c.sync)
    (hsign : c.dtsign = 1) (hmaxR : c.maxR = 0) (hminD : c.minD = 0)
    (st : LoopSt α) (hwc : whileCond c st) (hinv : c5Inv N0 d c.tmax st) :
    c5Inv N0 d c.tmax (loopIter c st) := by
  obtain ⟨hexit, heft, hpost, hN, hret, hdtld, hcase⟩ := hinv
  obtain ⟨s_t, s_dt, s_N, s_exit, s_eft, s_post⟩ := hstep st.r
  obtain ⟨y_t, y_N, y_exit, y_eft, y_post⟩ := hsync ((c.stepFn st.r).1)
  have r1eft : ((c.stepFn st.r).1).exact_finish_time = true := by
    rw [s_eft]
    exact heft
  have r1post : ((c.stepFn st.r).1).post_timestep = false := by
    rw [s_post]
    exact hpost
  rcases hcase with ⟨hls, hdt0, hlt⟩ | ⟨hls, hdt1, hlt⟩ | ⟨hls, ht2⟩
  · -- last_step = 0: dt is the entry dt and the next step fits strictly below tmax
    by_cases hge : (((c.stepFn st.r).1).t + ((c.stepFn st.r).1).dt) * c.dtsign ≥
        c.tmax * c.dtsign
    · have hq := loopRecheck_pos c ((c.stepFn st.r).1) st.dtld st.lastStep
        (if c.cfg.opengl then st.tr ++ [Ev.stepCall] ++ (c.stepFn st.r).2 ++ [Ev.display]
         else st.tr ++ [Ev.stepCall] ++ (c.stepFn st.r).2) ⟨hge, r1eft⟩
      simp only [loopIter]
      rw [hq, if_neg (show ¬ (({c.sync ((c.stepFn st.r).1) with
            dt := c.tmax - (c.sync ((c.stepFn st.r).1)).t} : Rebound α).post_timestep = true)
          from by simp [y_post, r1post])]
      refine ⟨?_, ?_, ?_, ?_, ?_, ?_, ?_⟩
      · show (c.sync ((c.stepFn st.r).1)).exit_simulation = false
        rw [y_exit, s_exit]
        exact hexit
      · show (c.sync ((c.stepFn st.r).1)).exact_finish_time = true
        rw [y_eft]
        exact r1eft
      · show (c.sync ((c.stepFn st.r).1)).post_timestep = false
        rw [y_post]
        exact r1post
      · show (c.sync ((c.stepFn st.r).1)).N = N0
        rw [y_N, s_N]
        exact hN
      · show monitorRet c.maxR c.minD _ st.ret = 0
        rw [hmaxR, hminD, monitorRet_zero]
        exact hret
      · exact hdtld
      · refine Or.inr (Or.inl ⟨?_, rfl, ?_⟩)
        · show st.lastStep + 1 = 1
          rw [hls]
          decide
        · show (c.sync ((c.stepFn st.r).1)).t < c.tmax
          rw [y_t, s_t, hdt0]
          exact hlt
    · have hq := loopRecheck_neg c ((c.stepFn st.r).1) st.dtld st.lastStep
        (if c.cfg.opengl then st.tr ++ [Ev.stepCall] ++ (c.stepFn st.r).2 ++ [Ev.display]
         else st.tr ++ [Ev.stepCall] ++ (c.stepFn st.r).2)
        (by intro hc; exact hge hc.1)
      have hlt2 : ((c.stepFn st.r).1).t + ((c.stepFn st.r).1).dt < c.tmax := by
        have h' := lt_of_not_le (fun h => hge (by rw [hsign, mul_one, mul_one]; exact h))
        exact h'
      simp only [loopIter]
      rw [hq, if_neg (show ¬ (((c.stepFn st.r).1).post_timestep = true) from by
        simp [r1post])]
      refine ⟨?_, ?_, ?_, ?_, ?_, ?_, ?_⟩
      · show ((c.stepFn st.r).1).exit_simulation = false
        rw [s_exit]
        exact hexit
      · exact r1eft
      · exact r1post
      · show ((c.stepFn st.r).1).N = N0
        rw [s_N]
        exact hN
      · show monitorRet c.maxR c.minD _ st.ret = 0
        rw [hmaxR, hminD, monitorRet_zero]
        exact hret
      · show ((c.stepFn st.r).1).dt = d
        rw [s_dt]
        exact hdt0
      · refine Or.inl ⟨hls, ?_, ?_⟩
        · show ((c.stepFn st.r).1).dt = d
          rw [s_dt]
          exact hdt0
        · show ((c.stepFn st.r).1).t + d < c.tmax
          rw [s_t, hdt0]
          rw [s_t, s_dt, hdt0] at hlt2
          exact hlt2
  · -- last_step = 1: dt spans exactly the remaining gap to tmax
    have hr1t : ((c.stepFn st.r).1).t = c.tmax := by
      rw [s_t, hdt1]
      ring
    have hr1dt : (0 : α) < ((c.stepFn st.r).1).dt := by
      rw [s_dt, hdt1]
      exact sub_pos.mpr hlt
    have hge : (((c.stepFn st.r).1).t + ((c.stepFn st.r).1).dt) * c.dtsign ≥
        c.tmax * c.dtsign := by
      rw [hsign, mul_one, mul_one, hr1t]
      linarith
    have hq := loopRecheck_pos c ((c.stepFn st.r).1) st.dtld st.lastStep
      (if c.cfg.opengl then st.tr ++ [Ev.stepCall] ++ (c.stepFn st.r).2 ++ [Ev.display]
       else st.tr ++ [Ev.stepCall] ++ (c.stepFn st.r).2) ⟨hge, r1eft⟩
    simp only [loopIter]
    rw [hq, if_neg (show ¬ (({c.sync ((c.stepFn st.r).1) with
          dt := c.tmax - (c.sync ((c.stepFn st.r).1)).t} : Rebound α).post_timestep = true)
        from by simp [y_post, r1post])]
    refine ⟨?_, ?_, ?_, ?_, ?_, ?_, ?_⟩
    · show (c.sync ((c.stepFn st.r).1)).exit_simulation = false
      rw [y_exit, s_exit]
      exact hexit
    · show (c.sync ((c.stepFn st.r).1)).exact_finish_time = true
      rw [y_eft]
      exact r1eft
    · show (c.sync ((c.stepFn st.r).1)).post_timestep = false
      rw [y_post]
      exact r1post
    · show (c.sync ((c.stepFn st.r).1)).N = N0
      rw [y_N, s_N]
      exact hN
    · show monitorRet c.maxR c.minD _ st.ret = 0
      rw [hmaxR, hminD, monitorRet_zero]
      exact hret
    · exact hdtld
    · refine Or.inr (Or.inr ⟨?_, ?_⟩)
      · show st.lastStep + 1 = 2
        rw [hls]
        decide
      · show (c.sync ((c.stepFn st.r).1)).t = c.tmax
        rw [y_t]
        exact hr1t
  · -- last_step = 2: the while condition already failed
    exact absurd (hls ▸ hwc.2.1) (lt_irrefl 2)

/-- The exact-finish-time run can only exit normally, with time landed
exactly on `tmax`, code 0 and `dt_last_done` equal to the entry `dt`. -/
theorem c5_go (c : IntCtx α) (N0 : ℤ) (d : α) (hd : 0 < d) (hN0 : 0 < N0)
    (hstep : stepExactAdvance c.stepFn) (hsync : syncPreserves c.sync)
    (hsign : c.dtsign = 1) (hmaxR : c.maxR = 0) (hminD : c.minD = 0) :
    ∀ (fuel : ℕ) (st : LoopSt α) (out : Outcome α),
      c5Inv N0 d c.tmax st → integrateGo c fuel st = some out →
      ∃ st2, out = Outcome.normal st2 ∧ st2.r.t = c.tmax ∧ st2.ret = 0 ∧
        st2.dtld = d := by
  intro fuel
  induction fuel with
  | zero =>
      intro st out hinv hgo
      exact absurd hgo (by simp [integrateGo])
  | succ n ih =>
      intro st out hinv hgo
      by_cases hw : whileCond c st
      · have hNpos : ¬ st.r.N ≤ 0 := by
          rw [hinv.2.2.2.1]
          exact not_le.mpr hN0
        rw [integrateGo_enter c n st hw hNpos] at hgo
        exact ih (loopIter c st) out
          (c5Inv_iter c N0 d hd hstep hsync hsign hmaxR hminD st hw hinv) hgo
      · rw [integrateGo_exit c n st hw] at hgo
        injection hgo with hout
        subst hout
        obtain ⟨hexit, heft, hpost, hN, hret, hdtld, hcase⟩ := hinv
        refine ⟨st, rfl, ?_, hret, hdtld⟩
        rcases hcase with ⟨hls, hdt0, hlt⟩ | ⟨hls, hdt1, hlt⟩ | ⟨hls, ht2⟩
        · exfalso
          apply hw
          refine ⟨?_, ?_, hret, hexit⟩
          · rw [hsign, mul_one, mul_one]
            linarith
          · rw [hls]
            decide
        · exfalso
          apply hw
          refine ⟨?_, ?_, hret, hexit⟩
          · rw [hsign, mul_one, mul_one]
            exact hlt
          · rw [hls]
            decide
        · exact ht2

/-- Claim C5: with `exact_finish_time` enabled, a positive step size, the
target still ahead, monitoring off, and an exactly-advancing orchestrator,
every completed run of `rebound_integrate` ends with code 0, the time landed
exactly on `tmax` (via the truncation re-check, which synchronizes, shrinks
`dt` to `tmax - t` and counts up to two final steps), and `dt` restored to
the last completed un-truncated step size — the entry `dt`. -/
theorem c5_exact_finish_time (cfg : Config) (stepFn : Rebound α → Rebound α × List Ev)
    (hooks : Hooks α) (sync : Rebound α → Rebound α) (fuel : ℕ) (r : Rebound α)
    (tmax : α) (code : ℤ) (r' : Rebound α) (tr : List Ev)
    (hstep : stepExactAdvance stepFn) (hsync : syncPreserves sync)
    (hpost : r.post_timestep = false) (heft : r.exact_finish_time = true)
    (hN : 0 < r.N) (hexit : r.exit_simulation = false)
    (hdt : 0 < r.dt) (ht : r.t < tmax)
    (hres : rebound_integrate cfg stepFn hooks sync fuel r tmax 0 0 =
      some (code, r', tr)) :
    code = 0 ∧ r'.t = tmax ∧ r'.dt = r.dt := by
  have hsign : dtsignOf r.dt = 1 := by
    unfold dtsignOf
    rw [if_neg (not_lt.mpr hdt.le)]
  simp only [rebound_integrate] at hres
  obtain ⟨o, hgo, hfin⟩ := Option.map_eq_some'.mp hres
  have hinv0 : c5Inv r.N r.dt tmax (integrateStart hooks r tmax (dtsignOf r.dt)) := by
    unfold integrateStart
    simp only [hpost, Bool.false_eq_true, if_false]
    split
    · exact ⟨hexit, heft, rfl, rfl, rfl, rfl, Or.inr (Or.inl ⟨rfl, rfl, ht⟩)⟩
    · rename_i hcond
      have hlt : r.t + r.dt < tmax := by
        have h' : ¬ ((r.t + r.dt) * dtsignOf r.dt ≥ tmax * dtsignOf r.dt) :=
          fun hA => hcond ⟨hA, heft⟩
        rw [hsign, mul_one, mul_one] at h'
        exact lt_of_not_le h'
      exact ⟨hexit, heft, hpost, rfl, rfl, rfl, Or.inl ⟨rfl, rfl, hlt⟩⟩
  obtain ⟨st2, hout, ht2, hret2, hdtld2⟩ :=
    c5_go ⟨cfg, stepFn, hooks, sync, tmax, 0, 0, dtsignOf r.dt⟩ r.N r.dt hdt hN
      hstep hsync hsign rfl rfl fuel _ o hinv0 hgo
  subst hout
  have hfin' : (st2.ret, ({sync st2.r with dt := st2.dtld} : Rebound α),
      st2.tr ++ [Ev.sync]) = (code, r', tr) := hfin
  obtain ⟨hc1, hc2, hc3⟩ : st2.ret = code ∧
      ({sync st2.r with dt := st2.dtld} : Rebound α) = r' ∧ st2.tr ++ [Ev.sync] = tr := by
    simpa using hfin'
  refine ⟨?_, ?_, ?_⟩
  · rw [← hc1]
    exact hret2
  · rw [← hc2]
    show (sync st2.r).t = tmax
    rw [(hsync st2.r).1]
    exact ht2
  · rw [← hc2]
    show st2.dtld = r.dt
    exact hdtld2

/-- Witness for C5 on the concrete `rC5` run (`dt = 2`, `tmax = 5`, not a
multiple): the run lands exactly on 5 and restores `dt = 2`. -/
theorem c5_witness : (0 : ℤ) = 0 ∧ rC5out.t = (5 : ℤ) ∧ rC5out.dt = rC5.dt :=
  c5_exact_finish_time cfgPlain stepAdvance hooksId syncFlag 8 rC5 5 0 rC5out trC5
    (fun s => ⟨rfl, rfl, rfl, rfl, rfl, rfl⟩) (fun s => ⟨rfl, rfl, rfl, rfl, rfl⟩)
    (by decide) (by decide) (by decide) (by decide) (by decide) (by decide) (by decide)
